import Mathlib

/-!
Verification of the Espresso session state machine (src/main.go).

Shallow embedding conventions:
- Go `time.Duration` is an `int64` count of nanoseconds; we model durations
  and instants as unbounded `Int` nanoseconds (no value in the program comes
  near the int64 overflow boundary).
- Go integer division `/` and remainder `%` truncate toward zero; they are
  modeled by `Int.tdiv` and `Int.tmod`.
- Go `d.Hours()`, `d.Minutes()`, `d.Seconds()` return `float64` values that
  are converted with `int(...)` (truncation). Go computes them as
  `float64(whole) + float64(rest)/unit`; for every duration representable in
  an int64 the whole part is below 2^53, so the truncated result is exactly
  the integer quotient. We therefore embed `int(d.Hours())` as
  `d.tdiv nsPerHour`, etc.
- The `execOnMainThread` serializer submissions made while processing one
  event are recorded as a `List OsCall` in submission order; toast
  notifications and the countdown label update are recorded as a
  `List PresentationEvent`.
-/

namespace Espresso

/-- Nanoseconds per second, the value of Go `time.Second`. -/
def nsPerSecond : Int := 1000000000

/-- Nanoseconds per minute, the value of Go `time.Minute`. -/
def nsPerMinute : Int := 60 * nsPerSecond

/-- Nanoseconds per hour, the value of Go `time.Hour`. -/
def nsPerHour : Int := 60 * nsPerMinute

/-- Embeds the Go struct `EspressoMode` (src/main.go lines 83-87). -/
structure EspressoMode where
  name : String
  duration : Int
  desc : String
deriving DecidableEq, Repr

/-- Embeds the fixed preset list `modes` (src/main.go lines 89-99). -/
def modes : List EspressoMode :=
  [ ⟨"Milk", 3 * nsPerMinute, "No caffeine, just for testing purposes."⟩,
    ⟨"Drop", 10 * nsPerMinute, "Just a drop, almost no caffeine."⟩,
    ⟨"Latte", 30 * nsPerMinute, "Gentle boost to get you started."⟩,
    ⟨"Cappuccino", 1 * nsPerHour, "Noticeable caffeine, perfectly balanced."⟩,
    ⟨"Americano", 3 * nsPerHour, "Stronger, long-lasting alertness."⟩,
    ⟨"Espresso", 6 * nsPerHour, "Concentrated, powerful kick."⟩,
    ⟨"Lungo", 8 * nsPerHour, "Super concentrated, extended energy."⟩,
    ⟨"Doppio", 12 * nsPerHour, "Double espresso, full-on focus all day."⟩,
    ⟨"Pure Caffeine", -1, "Maximum alertness, use with caution."⟩ ]

/-- The two Power Gate operations (src/main.go lines 103-110), as submitted
through the command serializer by `execOnMainThread`. -/
inductive OsCall where
  | allowSleep
  | preventSleep
deriving DecidableEq, Repr

/-- Presentation side effects the event loop emits: toast notifications
(`showToast`) and the countdown label/tooltip refresh. -/
inductive PresentationEvent where
  | toast (title body : String)
  | countdownUpdate (text : String)
deriving DecidableEq, Repr

/-- The session state owned by `onReady` (src/main.go lines 416-421):
`isActive`, `isInfinite`, `sessionEndTime`, `currentModeName`. The end time
is a wall-clock instant in nanoseconds. -/
structure SessionState where
  isActive : Bool
  isInfinite : Bool
  sessionEndTime : Int
  currentModeName : String
deriving DecidableEq, Repr

/-- Go zero values of the state variables at their declaration
(src/main.go lines 416-421): booleans false, zero time, empty string. -/
def initialState : SessionState :=
  { isActive := false, isInfinite := false, sessionEndTime := 0, currentModeName := "" }

/-- Embeds the name-resolution loop inside `startSession`
(src/main.go lines 441-448): `foundName` starts as "Custom" and the loop
breaks at the first preset whose duration equals `d`. -/
def firstMatchName : List EspressoMode → Int → String
  | [], _ => "Custom"
  | m :: rest, d => if m.duration = d then m.name else firstMatchName rest d

/-- Embeds `resetState` (src/main.go lines 423-436): clears the session
fields, sets the mode name to "Decaf", and submits one `allowSleep` call via
`execOnMainThread`. The UI icon/title updates are external collaborator
calls; `sessionEndTime` is not touched by the Go code. -/
def resetState (st : SessionState) : SessionState × List OsCall :=
  ({ st with isActive := false, isInfinite := false, currentModeName := "Decaf" },
   [OsCall.allowSleep])

/-- Embeds `startSession` (src/main.go lines 438-467): marks the session
active, resolves the display name from the duration, submits one
`preventSleep` call, and depending on the sign of `d` either marks the
session infinite or records `sessionEndTime = now + d` (Go
`time.Now().Add(d)`). -/
def startSession (now d : Int) (st : SessionState) : SessionState × List OsCall :=
  let foundName := firstMatchName modes d
  let st1 := { st with isActive := true, currentModeName := foundName }
  if d < 0 then
    ({ st1 with isInfinite := true }, [OsCall.preventSleep])
  else
    ({ st1 with isInfinite := false, sessionEndTime := now + d }, [OsCall.preventSleep])

/-- Embeds Go `Duration.Round(m)` for a positive modulus, without the int64
overflow saturation branches (unreachable at the magnitudes this program
uses): round to the nearest multiple of `m`, ties away from zero. -/
def durRound (d m : Int) : Int :=
  if m ≤ 0 then d
  else
    let r := d.tmod m
    if d < 0 then
      if -r + -r < m then d - r else d - m - r
    else
      if r + r < m then d - r else d + m - r

/-- Embeds `formatDuration` (src/main.go lines 322-332): round to the
nearest second, truncate to whole seconds, clamp below at zero, and render
as three fields. Go `fmt.Sprintf` with the pattern percent-d h space
percent-d m space percent-d s. -/
def formatDuration (d : Int) : String :=
  let d1 := durRound d nsPerSecond
  let totalSeconds := d1.tdiv nsPerSecond
  let totalSeconds := if totalSeconds < 0 then 0 else totalSeconds
  let h := totalSeconds.tdiv 3600
  let m := (totalSeconds.tdiv 60).tmod 60
  let s := totalSeconds.tmod 60
  toString h ++ "h " ++ toString m ++ "m " ++ toString s ++ "s"

/-- Embeds `formatFriendlyDuration` (src/main.go lines 334-342): negative
durations (the infinite sentinel) render as "Infinity"; durations of at
least one hour that divide evenly into hours render as whole hours with
suffix "h"; anything else renders as whole minutes with suffix "m". -/
def formatFriendlyDuration (d : Int) : String :=
  if d < 0 then "Infinity"
  else if nsPerHour ≤ d ∧ d.tmod nsPerHour = 0 then
    toString (d.tdiv nsPerHour) ++ "h"
  else
    toString (d.tdiv nsPerMinute) ++ "m"

/-- The events merged by the select loop (src/main.go lines 474-523):
the About item, Quit, Stop, a preset menu activation carrying its
`EspressoMode` over `controlCh`, and the 1-second ticker. -/
inductive Event where
  | info
  | quit
  | stop
  | start (m : EspressoMode)
  | tick
deriving DecidableEq, Repr

/-- Result of dispatching one event: the successor state, the serializer
submissions made, the presentation events emitted, and whether the loop
keeps accepting events (false only after `quit`). -/
structure StepResult where
  state : SessionState
  calls : List OsCall
  events : List PresentationEvent
  running : Bool
deriving DecidableEq, Repr

/-- Embeds one iteration of the select loop (src/main.go lines 474-523),
dispatching a single event at wall-clock instant `now`. Go
`time.Until(sessionEndTime)` is `sessionEndTime - now`. -/
def stepEvent (now : Int) (st : SessionState) (e : Event) : StepResult :=
  match e with
  | Event.info => ⟨st, [], [], true⟩
  | Event.quit => ⟨st, [], [], false⟩
  | Event.stop =>
      let p := resetState st
      ⟨p.1, p.2,
       [PresentationEvent.toast "Espresso Stopped" "System is now allowed to sleep"],
       true⟩
  | Event.start m =>
      let d := m.duration
      let p := startSession now d st
      let durationText :=
        if d < 0 then "Preventing sleep indefinitely"
        else m.desc ++ "\nPreventing sleep for " ++ formatFriendlyDuration d
      ⟨p.1, p.2, [PresentationEvent.toast (m.name ++ " Mode Started") durationText], true⟩
  | Event.tick =>
      if !st.isActive then ⟨st, [], [], true⟩
      else if st.isInfinite then ⟨st, [], [], true⟩
      else
        let remaining := st.sessionEndTime - now
        if remaining ≤ 0 then
          let p := resetState st
          ⟨p.1, p.2,
           [PresentationEvent.toast "Espresso Finished" "System is now allowed to sleep"],
           true⟩
        else
          ⟨st, [],
           [PresentationEvent.countdownUpdate (formatDuration remaining)],
           true⟩

/-- Folds a timestamped event sequence through the loop, tracking only the
session state. -/
def runEvents (st : SessionState) : List (Int × Event) → SessionState
  | [] => st
  | (now, e) :: rest => runEvents (stepEvent now st e).state rest

/-- Embeds the startup sequence of `main` (src/main.go lines 366-374):
`startExecThread` submits nothing; if the single-instance mutex is not
acquired the process exits with no serializer submission; otherwise exactly
one `allowSleep` is submitted via `execOnMainThread` before `systray.Run`
starts delivering events. -/
def mainStartupCalls (singleInstanceAcquired : Bool) : List OsCall :=
  if singleInstanceAcquired then [OsCall.allowSleep] else []

/-- Session Model classification: Decaf means no sleep-prevention lock held. -/
def isDecaf (st : SessionState) : Prop := st.isActive = false

/-- Session Model classification: active with an end time. -/
def isActiveTimed (st : SessionState) : Prop :=
  st.isActive = true ∧ st.isInfinite = false

/-- Session Model classification: active with no end time. -/
def isActiveInfinite (st : SessionState) : Prop :=
  st.isActive = true ∧ st.isInfinite = true

/-- The invariant claimed of the Session Model: inactive states are never
marked infinite, and active states carry a non-empty display name. -/
def sessionInvariant (st : SessionState) : Prop :=
  (st.isActive = false → st.isInfinite = false) ∧
  (st.isActive = true → st.currentModeName ≠ "")

/-- An event a user can generate without quitting: a preset selection,
the stop item, or a ticker firing. -/
def userEvent : Event → Bool
  | Event.stop => true
  | Event.start _ => true
  | Event.tick => true
  | _ => false

/-- The Session Model occupies exactly one of the three named states. -/
def exactlyOneSessionState (st : SessionState) : Prop :=
  (isDecaf st ∧ ¬ isActiveTimed st ∧ ¬ isActiveInfinite st) ∨
  (¬ isDecaf st ∧ isActiveTimed st ∧ ¬ isActiveInfinite st) ∨
  (¬ isDecaf st ∧ ¬ isActiveTimed st ∧ isActiveInfinite st)

/-- Spec-side restatement of the countdown formatting rule of section 4.4:
round the remaining span to the nearest second, clamp below at zero, and
always render all three fields hours, minutes, seconds. Written with
floor division and Euclidean remainder, independently of the code's
truncating operations. -/
def countdownSpec (d : Int) : String :=
  let t := max 0 ((d + 500000000) / 1000000000)
  toString (t / 3600) ++ "h " ++ toString (t / 60 % 60) ++ "m " ++ toString (t % 60) ++ "s"

/-- The name-resolution loop is the first-match-wins lookup, phrased with
the library's find-first combinator. -/
theorem firstMatchName_eq_find (l : List EspressoMode) (d : Int) :
    firstMatchName l d
      = ((l.find? (fun m => m.duration == d)).map EspressoMode.name).getD "Custom" := by
  induction l with
  | nil => rfl
  | cons m rest ih =>
      by_cases h : m.duration = d
      · simp [firstMatchName, h]
      · simp [firstMatchName, h, ih]

/-- The name-resolution loop never produces an empty label when every
preset name is non-empty, because the fallback is the literal "Custom". -/
theorem firstMatchName_ne_empty (l : List EspressoMode) (d : Int)
    (h : ∀ m ∈ l, m.name ≠ "") : firstMatchName l d ≠ "" := by
  induction l with
  | nil => simp [firstMatchName]
  | cons m rest ih =>
      by_cases hm : m.duration = d
      · simpa [firstMatchName, hm] using h m (by simp)
      · simpa [firstMatchName, hm] using ih (fun x hx => h x (by simp [hx]))

/-- Dispatching any single event preserves the Session Model invariant. -/
theorem stepEvent_preserves_invariant (now : Int) (st : SessionState) (e : Event)
    (h : sessionInvariant st) : sessionInvariant (stepEvent now st e).state := by
  have hname : ∀ d : Int, firstMatchName modes d ≠ "" := fun d =>
    firstMatchName_ne_empty modes d (by decide)
  cases e with
  | info => exact h
  | quit => exact h
  | stop => simp [stepEvent, resetState, sessionInvariant]
  | start m =>
      by_cases hd : m.duration < 0 <;>
        simp [stepEvent, startSession, hd, sessionInvariant, hname]
  | tick =>
      by_cases hA : st.isActive
      · by_cases hI : st.isInfinite
        · simpa [stepEvent, hA, hI] using h
        · by_cases hR : st.sessionEndTime - now ≤ 0
          · simp [stepEvent, hA, hI, hR, resetState, sessionInvariant]
          · simpa [stepEvent, hA, hI, hR] using h
      · simpa [stepEvent, hA] using h

/-- Folding any event sequence through the loop preserves the invariant. -/
theorem runEvents_invariant (evs : List (Int × Event)) (st : SessionState)
    (h : sessionInvariant st) : sessionInvariant (runEvents st evs) := by
  induction evs generalizing st with
  | nil => exact h
  | cons p rest ih =>
      obtain ⟨now, e⟩ := p
      exact ih _ (stepEvent_preserves_invariant now st e h)

/-- Every session value lies in exactly one of the three named states,
because the two booleans partition the value space. -/
theorem exactlyOne_of_any (st : SessionState) : exactlyOneSessionState st := by
  unfold exactlyOneSessionState isDecaf isActiveTimed isActiveInfinite
  cases hA : st.isActive <;> cases hI : st.isInfinite <;> simp

/-- Claim C1: for every finite sequence of start, stop, and tick events
applied from the initial inactive state, the Session Model is in exactly one
of Decaf, Active-Timed, Active-Infinite after each event; the invariant that
inactive implies not infinite holds, and whenever the session is active the
mode name is non-empty. -/
theorem session_partition_invariant (evs : List (Int × Event))
    (h : ∀ p ∈ evs, userEvent p.2 = true) :
    exactlyOneSessionState (runEvents initialState evs) ∧
    sessionInvariant (runEvents initialState evs) :=
  ⟨exactlyOne_of_any _,
   runEvents_invariant evs initialState
     ⟨fun _ => rfl, fun hx => absurd hx (by decide)⟩⟩

/-- Witness for claim C1 at the concrete sequence start Drop, tick, stop. -/
theorem session_partition_invariant_witness :
    (∀ p ∈ [((0:Int), Event.start ⟨"Drop", 10 * nsPerMinute, "d"⟩),
            ((1:Int), Event.tick), ((2:Int), Event.stop)], userEvent p.2 = true) ∧
    (exactlyOneSessionState
       (runEvents initialState
         [((0:Int), Event.start ⟨"Drop", 10 * nsPerMinute, "d"⟩),
          ((1:Int), Event.tick), ((2:Int), Event.stop)]) ∧
     sessionInvariant
       (runEvents initialState
         [((0:Int), Event.start ⟨"Drop", 10 * nsPerMinute, "d"⟩),
          ((1:Int), Event.tick), ((2:Int), Event.stop)])) :=
  ⟨by decide, session_partition_invariant _ (by decide)⟩

/-- Claim C2: from every prior state, processing start with a non-negative
duration yields Active-Timed with end time now plus the duration; a negative
duration yields Active-Infinite; in both cases the serializer receives
exactly the single submission preventSleep. -/
theorem start_transitions (now : Int) (m : EspressoMode) (st : SessionState) :
    (0 ≤ m.duration →
       isActiveTimed (stepEvent now st (Event.start m)).state ∧
       (stepEvent now st (Event.start m)).state.sessionEndTime = now + m.duration) ∧
    (m.duration < 0 → isActiveInfinite (stepEvent now st (Event.start m)).state) ∧
    (stepEvent now st (Event.start m)).calls = [OsCall.preventSleep] := by
  by_cases hd : m.duration < 0 <;>
    simp [stepEvent, startSession, isActiveTimed, isActiveInfinite, hd]

/-- Witness for claim C2 at the Drop duration from the initial state. -/
theorem start_transitions_witness :
    (0 ≤ (10 * nsPerMinute : Int)) ∧
    (isActiveTimed (stepEvent 7 initialState
        (Event.start ⟨"Drop", 10 * nsPerMinute, "d"⟩)).state ∧
     (stepEvent 7 initialState
        (Event.start ⟨"Drop", 10 * nsPerMinute, "d"⟩)).state.sessionEndTime
        = 7 + 10 * nsPerMinute) :=
  ⟨by decide, (start_transitions 7 ⟨"Drop", 10 * nsPerMinute, "d"⟩ initialState).1 (by decide)⟩

/-- Claim C3: for every Active-Timed session, the first tick processed at an
instant at or past the end time resets the session to Decaf, submits exactly
one allowSleep call, and emits the finished toast; a subsequent tick from
the resulting Decaf state changes nothing, submits no call, and emits no
event, so expiry is acted upon exactly once. -/
theorem tick_expiry_exactly_once (now now2 : Int) (st : SessionState)
    (hA : st.isActive = true) (hI : st.isInfinite = false)
    (hT : st.sessionEndTime ≤ now) :
    isDecaf (stepEvent now st Event.tick).state ∧
    (stepEvent now st Event.tick).calls = [OsCall.allowSleep] ∧
    (stepEvent now st Event.tick).events
      = [PresentationEvent.toast "Espresso Finished" "System is now allowed to sleep"] ∧
    (stepEvent now2 (stepEvent now st Event.tick).state Event.tick).state
      = (stepEvent now st Event.tick).state ∧
    (stepEvent now2 (stepEvent now st Event.tick).state Event.tick).calls = [] ∧
    (stepEvent now2 (stepEvent now st Event.tick).state Event.tick).events = [] := by
  have hR : st.sessionEndTime - now ≤ 0 := by omega
  simp [stepEvent, hA, hI, hR, resetState, isDecaf]

/-- Witness for claim C3: a Drop session ending at instant 5 ticked at 5 and
then again at 6. -/
theorem tick_expiry_exactly_once_witness :
    ((⟨true, false, 5, "Drop"⟩ : SessionState).isActive = true ∧
     (⟨true, false, 5, "Drop"⟩ : SessionState).isInfinite = false ∧
     (⟨true, false, 5, "Drop"⟩ : SessionState).sessionEndTime ≤ 5) ∧
    (isDecaf (stepEvent 5 ⟨true, false, 5, "Drop"⟩ Event.tick).state ∧
     (stepEvent 5 ⟨true, false, 5, "Drop"⟩ Event.tick).calls = [OsCall.allowSleep] ∧
     (stepEvent 5 ⟨true, false, 5, "Drop"⟩ Event.tick).events
       = [PresentationEvent.toast "Espresso Finished" "System is now allowed to sleep"] ∧
     (stepEvent 6 (stepEvent 5 ⟨true, false, 5, "Drop"⟩ Event.tick).state Event.tick).state
       = (stepEvent 5 ⟨true, false, 5, "Drop"⟩ Event.tick).state ∧
     (stepEvent 6 (stepEvent 5 ⟨true, false, 5, "Drop"⟩ Event.tick).state Event.tick).calls = [] ∧
     (stepEvent 6 (stepEvent 5 ⟨true, false, 5, "Drop"⟩ Event.tick).state Event.tick).events
       = []) :=
  ⟨⟨rfl, rfl, by decide⟩,
   tick_expiry_exactly_once 5 6 ⟨true, false, 5, "Drop"⟩ rfl rfl (by decide)⟩

/-- Claim C4: processing a stop event from every prior state, including an
already inactive one, resets the session to Decaf and submits exactly one
allowSleep call to the serializer. -/
theorem stop_always_decaf_one_allow_sleep (now : Int) (st : SessionState) :
    isDecaf (stepEvent now st Event.stop).state ∧
    (stepEvent now st Event.stop).state.isInfinite = false ∧
    (stepEvent now st Event.stop).state.currentModeName = "Decaf" ∧
    (stepEvent now st Event.stop).calls = [OsCall.allowSleep] ∧
    ((stepEvent now st Event.stop).calls.count OsCall.allowSleep = 1) := by
  simp [stepEvent, resetState, isDecaf]

/-- Claim C6: the friendly-duration formatter renders an exact positive
multiple of one hour as whole hours with suffix h, any other non-negative
duration as floored whole minutes with suffix m, and the negative infinite
sentinel as "Infinity"; in particular ten minutes, one hour, ninety minutes,
and the sentinel render as "10m", "1h", "90m", and "Infinity". -/
theorem friendly_duration_rule (d : Int) :
    (0 < d → d.tmod nsPerHour = 0 →
       formatFriendlyDuration d = toString (d / nsPerHour) ++ "h") ∧
    (0 ≤ d → ¬(0 < d ∧ d.tmod nsPerHour = 0) →
       formatFriendlyDuration d = toString (d / nsPerMinute) ++ "m") ∧
    formatFriendlyDuration (-1) = "Infinity" ∧
    formatFriendlyDuration (10 * nsPerMinute) = "10m" ∧
    formatFriendlyDuration nsPerHour = "1h" ∧
    formatFriendlyDuration (90 * nsPerMinute) = "90m" := by
  refine ⟨?_, ?_, by decide, by decide, by decide, by decide⟩
  · intro h1 h2
    have hle : nsPerHour ≤ d := Int.le_of_dvd h1 (Int.dvd_of_tmod_eq_zero h2)
    rw [formatFriendlyDuration, if_neg (by omega), if_pos ⟨hle, h2⟩,
      Int.tdiv_eq_ediv (by omega) (by decide)]
  · intro h0 hneg
    have hpos : (0:Int) < nsPerHour := by decide
    have hcond : ¬ (nsPerHour ≤ d ∧ d.tmod nsPerHour = 0) := by
      rintro ⟨hle, hz⟩
      exact hneg ⟨by omega, hz⟩
    rw [formatFriendlyDuration, if_neg (by omega), if_neg hcond,
      Int.tdiv_eq_ediv h0 (by decide)]

/-- Witness for claim C6 at two hours, an exact positive hour multiple. -/
theorem friendly_duration_rule_witness :
    (0 < (2 * nsPerHour : Int) ∧ (2 * nsPerHour : Int).tmod nsPerHour = 0) ∧
    formatFriendlyDuration (2 * nsPerHour) = toString ((2 * nsPerHour : Int) / nsPerHour) ++ "h" :=
  ⟨by decide, (friendly_duration_rule (2 * nsPerHour)).1 (by decide) (by decide)⟩

/-- The truncated, clamped whole-second count computed by the countdown
formatter equals the nearest-second value of the spec: round half toward
positive infinity, floor-divide by one second, clamp below at zero. The two
sides differ before clamping only for negative spans, where both clamp
to zero. -/
theorem totalSeconds_clamped_eq (d : Int) :
    (if (durRound d nsPerSecond).tdiv nsPerSecond < 0 then 0
     else (durRound d nsPerSecond).tdiv nsPerSecond)
      = max 0 ((d + 500000000) / 1000000000) := by
  simp only [nsPerSecond]
  by_cases h : 0 ≤ d
  · have hmod : d.tmod 1000000000 = d % 1000000000 := Int.tmod_eq_emod h (by decide)
    have h1 : durRound d 1000000000 = 1000000000 * ((d + 500000000) / 1000000000) := by
      simp only [durRound]
      rw [if_neg (by decide), hmod, if_neg (by omega)]
      split <;> omega
    rw [h1, Int.mul_tdiv_cancel_left _ (by decide)]
    have h2 : 0 ≤ (d + 500000000) / 1000000000 := Int.ediv_nonneg (by omega) (by decide)
    rw [if_neg (by omega), max_eq_right h2]
  · have hd : d < 0 := by omega
    have htd : d.tdiv 1000000000 = -((-d) / 1000000000) := by
      have h1 : (-(-d)).tdiv 1000000000 = -((-d).tdiv 1000000000) :=
        Int.neg_tdiv (-d) 1000000000
      rw [Int.neg_neg] at h1
      rw [h1, Int.tdiv_eq_ediv (by omega) (by decide)]
    have hmod : d.tmod 1000000000 = d + 1000000000 * ((-d) / 1000000000) := by
      rw [Int.tmod_def, htd]; ring
    have hq0 : 0 ≤ (-d) / 1000000000 := Int.ediv_nonneg (by omega) (by decide)
    have hX : durRound d 1000000000 = 1000000000 * (-((-d) / 1000000000)) ∨
        durRound d 1000000000 = 1000000000 * (-((-d) / 1000000000 + 1)) := by
      simp only [durRound]
      rw [if_neg (by decide), hmod, if_pos hd]
      split
      · left; ring
      · right; ring
    have h5 : (d + 500000000) / 1000000000 ≤ 0 := by omega
    rcases hX with hX | hX <;>
      rw [hX, Int.mul_tdiv_cancel_left _ (by decide), max_eq_left h5] <;>
      split <;> omega

/-- Claim C7: the countdown formatter always produces the three-field
string of hours, minutes, and seconds computed from the remaining span
rounded to the nearest second and clamped to be non-negative; a span of
3661 seconds renders as "1h 1m 1s" and every zero or negative span renders
as "0h 0m 0s". -/
theorem countdown_format_rule (d : Int) :
    formatDuration d = countdownSpec d ∧
    (d ≤ 0 → formatDuration d = "0h 0m 0s") ∧
    formatDuration (3661 * nsPerSecond) = "1h 1m 1s" := by
  have hmain : formatDuration d = countdownSpec d := by
    simp only [formatDuration, countdownSpec]
    rw [totalSeconds_clamped_eq d]
    have ht0 : (0:Int) ≤ max 0 ((d + 500000000) / 1000000000) := le_max_left 0 _
    rw [Int.tdiv_eq_ediv ht0 (show (0:Int) ≤ 3600 by decide),
      Int.tdiv_eq_ediv ht0 (show (0:Int) ≤ 60 by decide),
      Int.tmod_eq_emod (Int.ediv_nonneg ht0 (show (0:Int) ≤ 60 by decide))
        (show (0:Int) ≤ 60 by decide),
      Int.tmod_eq_emod ht0 (show (0:Int) ≤ 60 by decide)]
  refine ⟨hmain, ?_, by decide⟩
  intro hneg
  rw [hmain]
  have h5 : (d + 500000000) / 1000000000 ≤ 0 := by omega
  simp only [countdownSpec]
  rw [max_eq_left h5]
  decide

/-- Witness for claim C7 at a span of minus three seconds. -/
theorem countdown_format_rule_witness :
    ((-3 * nsPerSecond : Int) ≤ 0) ∧ formatDuration (-3 * nsPerSecond) = "0h 0m 0s" :=
  ⟨by decide, (countdown_format_rule (-3 * nsPerSecond)).2.1 (by decide)⟩

/-- Claim C8: processing start resolves the display name to the first preset
of the fixed nine-entry list whose duration equals the requested duration,
falling back to "Custom"; the resulting activity, infiniteness, and end time
are determined by the duration value alone. -/
theorem start_name_resolution (now d : Int) (st : SessionState) :
    (startSession now d st).1.currentModeName
      = ((modes.find? (fun m => m.duration == d)).map EspressoMode.name).getD "Custom" ∧
    modes.length = 9 ∧
    (startSession now d st).1.isActive = true ∧
    (startSession now d st).1.isInfinite = decide (d < 0) ∧
    (0 ≤ d → (startSession now d st).1.sessionEndTime = now + d) := by
  refine ⟨?_, by decide, ?_, ?_, ?_⟩
  · rw [← firstMatchName_eq_find]
    by_cases hd : d < 0 <;> simp [startSession, hd]
  · by_cases hd : d < 0 <;> simp [startSession, hd]
  · by_cases hd : d < 0 <;> simp [startSession, hd]
  · intro h0
    simp [startSession, show ¬ d < 0 by omega]

/-- Witness for claim C8 at a duration matching no preset. -/
theorem start_name_resolution_witness :
    (0 ≤ (7 * nsPerMinute : Int)) ∧
    (startSession 3 (7 * nsPerMinute) initialState).1.sessionEndTime = 3 + 7 * nsPerMinute :=
  ⟨by decide, (start_name_resolution 3 (7 * nsPerMinute) initialState).2.2.2.2 (by decide)⟩

/-- Claim C9: processing a quit event leaves the session fields unchanged,
submits no serializer call, emits no presentation event, and stops the loop
from accepting further events. -/
theorem quit_no_effect (now : Int) (st : SessionState) :
    stepEvent now st Event.quit
      = { state := st, calls := [], events := [], running := false } := by
  simp [stepEvent]

/-- Claim C10: when the single-instance mutex is acquired, process startup
submits exactly one allowSleep call through the serializer before any event
is processed, so the program begins in the sleep-allowed state. -/
theorem startup_single_allow_sleep :
    mainStartupCalls true = [OsCall.allowSleep] ∧
    (mainStartupCalls true).count OsCall.allowSleep = 1 := by
  decide

end Espresso
